import Mathlib

/-
Verification of the hospital-management prediction service (Phase 5 API).
Shallow embedding of api/services/risk_model.py, api/services/claim_model.py
and api/services/prediction_logger.py, plus theorems checking the spec.
-/

set_option maxHeartbeats 1000000

namespace Hospital

/-- Scalar value of a request field after pydantic validation and
`model_dump(exclude_none=True)`: a string, a number (int or float,
modelled as a rational), or a boolean.  `None` fields are dropped by
`exclude_none`, so absence models null. -/
inductive Value where
  | num  : Rat → Value
  | str  : String → Value
  | bool : Bool → Value
deriving DecidableEq, Repr

/-- Test for `isinstance(val, (int, float)) and not isinstance(val, bool)`. -/
def Value.isNum : Value → Bool
  | .num _ => true
  | _ => false

/-- A request after `_request_to_features` (`model_dump(exclude_none=True)`):
an association list from field name to value, no null values present. -/
abbrev Request := List (String × Value)

/-- Dictionary lookup `raw.get(k)`; `none` models both a missing key and
(after `exclude_none`) a null value. -/
def lookup (raw : Request) (k : String) : Option Value :=
  (raw.find? (fun p => p.1 = k)).map (fun p => p.2)

/-- Static alias table `_RISK_FIELD_TO_MODEL` of risk_model.py:
API request field name -> model fit-time name. -/
def _RISK_FIELD_TO_MODEL : List (String × String) :=
  [("avg_length_of_stay_patient", "avg_los_per_patient")]

/-- Python `.lower()`, character by character. -/
def pyLower (s : String) : String :=
  String.mk (s.toList.map Char.toLower)

/-- Python `.strip()`: drop leading and trailing whitespace. -/
def pyStrip (s : String) : String :=
  String.mk
    (((s.toList.dropWhile Char.isWhitespace).reverse.dropWhile
      Char.isWhitespace).reverse)

/-- The normalizer `lambda s: (s or "").replace("_", " ").lower()` used by
the one-hot rule of both row builders; replacing the one-character pattern
`"_"` is a character map. -/
def normStr (s : String) : String :=
  pyLower (String.mk (s.toList.map (fun c => if c = '_' then ' ' else c)))

/-- Python `name.split("_", 1)` when `"_" in name`: split at the first
underscore into the part before and the part after. -/
def splitFirstUnderscore (s : String) : Option (String × String) :=
  match s.toList.findIdx? (fun c => c = '_') with
  | none => none
  | some i => some (String.mk (s.toList.take i), String.mk (s.toList.drop (i + 1)))

/-- Alias rule of the risk row builder (lines 108-114 of risk_model.py):
the first alias-table entry whose model name equals `name`, when its API
field is present with a non-null value.  The claim row builder has no alias
table; it is modelled by passing the empty table. -/
def aliasValue (tbl : List (String × String)) (raw : Request) (name : String) :
    Option Value :=
  (tbl.find? (fun kv => kv.2 = name)).bind (fun kv => lookup raw kv.1)

/-- Direct numeric rule (risk_model.py lines 115-121): the schema name itself
present in the request with a numeric, non-boolean value.  A present string
or boolean value falls through to the later rules, like the source. -/
def directNumeric (raw : Request) (name : String) : Option Value :=
  match lookup raw name with
  | some (Value.num x) => some (Value.num x)
  | _ => none

/-- One-hot rule (risk_model.py lines 122-131): split `name` at the first
underscore into `pre` and `rest`; if the request holds a string at `pre`,
the feature is 1.0 when `normStr rest = normStr` of that string, else 0.0. -/
def oneHotValue (raw : Request) (name : String) : Option Value :=
  match splitFirstUnderscore name with
  | some (pre, rest) =>
    match lookup raw pre with
    | some (Value.str sv) =>
      some (Value.num (if normStr rest = normStr sv then 1 else 0))
    | _ => none
  | none => none

/-- Named defaults and zero fallback (risk_model.py lines 132-140): `age` and
`chronic_flag` use the request value verbatim when present, else 0.0; any
other unresolved name gets 0.0. -/
def defaultValue (raw : Request) (name : String) : Value :=
  if name = "age" then (lookup raw "age").getD (Value.num 0)
  else if name = "chronic_flag" then (lookup raw "chronic_flag").getD (Value.num 0)
  else Value.num 0

/-- Value chosen for one schema name: the first matching rule in the source
order alias, direct numeric, one-hot, named default / zero fallback. -/
def featureValue (tbl : List (String × String)) (raw : Request) (name : String) :
    Value :=
  ((aliasValue tbl raw name).orElse (fun _ =>
    (directNumeric raw name).orElse (fun _ =>
      oneHotValue raw name))).getD (defaultValue raw name)

/-- Loop of the row builders: iterate the schema names in order, skipping a
name already present in the accumulated row (`if name in row: continue`),
appending the chosen value otherwise (Python dict insertion order). -/
def buildRowAux (tbl : List (String × String)) (raw : Request) :
    List String → List (String × Value) → List (String × Value)
  | [], row => row
  | name :: rest, row =>
    if row.any (fun p => p.1 = name) then buildRowAux tbl raw rest row
    else buildRowAux tbl raw rest (row ++ [(name, featureValue tbl raw name)])

/-- Row builder of risk_model.py (lines 96-141), applied to the request
after `_request_to_features`. -/
def _build_row_for_model_feature_names (feature_names : List String)
    (raw : Request) : List (String × Value) :=
  buildRowAux _RISK_FIELD_TO_MODEL raw feature_names []

/-- Row builder of claim_model.py (lines 86-119): identical to the risk
builder except that the claim module has no alias table, so the alias rule
never fires; modelled with the empty alias table. -/
def _build_row_for_claim_model_feature_names (feature_names : List String)
    (raw : Request) : List (String × Value) :=
  buildRowAux [] raw feature_names []

/-- Check that an optional value is absent or numeric. -/
def optNumB : Option Value → Bool
  | none => true
  | some v => v.isNum

/-- Well-formedness of a request as enforced by the pydantic schemas: the
declared float fields reachable verbatim by the builders (the alias table's
API fields, `age`, `chronic_flag`) are numeric when present. -/
def wellFormedB (tbl : List (String × String)) (raw : Request) : Bool :=
  tbl.all (fun kv => optNumB (lookup raw kv.1)) &&
    optNumB (lookup raw "age") && optNumB (lookup raw "chronic_flag")

/-- A schema name none of the matching rules can resolve from the request:
no alias hit, the name itself absent, and the one-hot rule inapplicable. -/
def unresolvedB (tbl : List (String × String)) (raw : Request) (name : String) :
    Bool :=
  (aliasValue tbl raw name).isNone && (lookup raw name).isNone &&
    (oneHotValue raw name).isNone

/-- Canonical risk labels (enum `RiskScore` of request_response.py). -/
inductive RiskScore where
  | LOW
  | MEDIUM
  | HIGH
deriving DecidableEq, Repr

/-- Canonical claim labels (enum `ClaimStatus` of request_response.py). -/
inductive ClaimStatus where
  | PAID
  | PENDING
  | REJECTED
deriving DecidableEq, Repr

/-- Label normalizer `_normalize_risk_score` (risk_model.py lines 207-214).
The Python annotation is `str`, but `(label or "")` also accepts a missing
label, so the input is modelled as an optional string. -/
def _normalize_risk_score (label : Option String) : RiskScore :=
  let s := pyLower (pyStrip (label.getD ""))
  if s = "high" ∨ s = "2" then RiskScore.HIGH
  else if s = "medium" ∨ s = "mid" ∨ s = "1" then RiskScore.MEDIUM
  else RiskScore.LOW

/-- Label normalizer `_normalize_claim_status` (claim_model.py lines 180-186). -/
def _normalize_claim_status (label : Option String) : ClaimStatus :=
  let s := pyLower (pyStrip (label.getD ""))
  if s = "rejected" ∨ s = "reject" then ClaimStatus.REJECTED
  else if s = "paid" ∨ s = "accept" then ClaimStatus.PAID
  else ClaimStatus.PENDING

/-! Audit logging (prediction_logger.py).  `_feature_hash` serializes the
feature dict with `json.dumps(features, sort_keys=True, default=str)`,
hashes the UTF-8 bytes with SHA-256 and keeps the first 16 hex characters.
SHA-256 is embedded below over `Nat` with explicit reduction mod 2^32. -/

/-- Reduce to a 32-bit word. -/
def w32 (n : Nat) : Nat := n % 4294967296

/-- Right rotation of a 32-bit word by `k` bits. -/
def rotr (k n : Nat) : Nat := w32 ((n >>> k) ||| (n <<< (32 - k)))

def shaCh (x y z : Nat) : Nat := (x &&& y) ^^^ ((x ^^^ 4294967295) &&& z)

def shaMaj (x y z : Nat) : Nat := (x &&& y) ^^^ (x &&& z) ^^^ (y &&& z)

def bigSigma0 (x : Nat) : Nat := rotr 2 x ^^^ rotr 13 x ^^^ rotr 22 x

def bigSigma1 (x : Nat) : Nat := rotr 6 x ^^^ rotr 11 x ^^^ rotr 25 x

def smallSigma0 (x : Nat) : Nat := rotr 7 x ^^^ rotr 18 x ^^^ (x >>> 3)

def smallSigma1 (x : Nat) : Nat := rotr 17 x ^^^ rotr 19 x ^^^ (x >>> 10)

/-- SHA-256 round constants. -/
def shaK : List Nat :=
  [1116352408, 1899447441, 3049323471, 3921009573,
   961987163, 1508970993, 2453635748, 2870763221,
   3624381080, 310598401, 607225278, 1426881987,
   1925078388, 2162078206, 2614888103, 3248222580,
   3835390401, 4022224774, 264347078, 604807628,
   770255983, 1249150122, 1555081692, 1996064986,
   2554220882, 2821834349, 2952996808, 3210313671,
   3336571891, 3584528711, 113926993, 338241895,
   666307205, 773529912, 1294757372, 1396182291,
   1695183700, 1986661051, 2177026350, 2456956037,
   2730485921, 2820302411, 3259730800, 3345764771,
   3516065817, 3600352804, 4094571909, 275423344,
   430227734, 506948616, 659060556, 883997877,
   958139571, 1322822218, 1537002063, 1747873779,
   1955562222, 2024104815, 2227730452, 2361852424,
   2428436474, 2756734187, 3204031479, 3329325298]

/-- Working state of the compression function: eight 32-bit words. -/
structure ShaState where
  a : Nat
  b : Nat
  c : Nat
  d : Nat
  e : Nat
  f : Nat
  g : Nat
  h : Nat
deriving DecidableEq, Repr

/-- Initial SHA-256 hash value. -/
def shaH0 : ShaState :=
  ⟨1779033703, 3144134277, 1013904242, 2773480762,
   1359893119, 2600822924, 528734635, 1541459225⟩

/-- One round of the SHA-256 compression function. -/
def shaRound (st : ShaState) (k w : Nat) : ShaState :=
  let t1 := w32 (st.h + bigSigma1 st.e + shaCh st.e st.f st.g + k + w)
  let t2 := w32 (bigSigma0 st.a + shaMaj st.a st.b st.c)
  ⟨w32 (t1 + t2), st.a, st.b, st.c, w32 (st.d + t1), st.e, st.f, st.g⟩

/-- UTF-8 encoding of one character, as `str.encode()` produces. -/
def utf8Bytes (c : Char) : List Nat :=
  let n := c.toNat
  if n < 0x80 then [n]
  else if n < 0x800 then
    [0xC0 ||| (n >>> 6), 0x80 ||| (n &&& 0x3F)]
  else if n < 0x10000 then
    [0xE0 ||| (n >>> 12), 0x80 ||| ((n >>> 6) &&& 0x3F), 0x80 ||| (n &&& 0x3F)]
  else
    [0xF0 ||| (n >>> 18), 0x80 ||| ((n >>> 12) &&& 0x3F),
     0x80 ||| ((n >>> 6) &&& 0x3F), 0x80 ||| (n &&& 0x3F)]

/-- UTF-8 bytes of a string. -/
def strBytes (s : String) : List Nat := s.toList.flatMap utf8Bytes

/-- Big-endian 64-bit encoding of a length in bits. -/
def be64 (n : Nat) : List Nat :=
  [(n >>> 56) &&& 255, (n >>> 48) &&& 255, (n >>> 40) &&& 255,
   (n >>> 32) &&& 255, (n >>> 24) &&& 255, (n >>> 16) &&& 255,
   (n >>> 8) &&& 255, n &&& 255]

/-- SHA-256 padding: append 0x80, zero bytes to 56 mod 64, then the bit
length as 8 big-endian bytes. -/
def shaPad (msg : List Nat) : List Nat :=
  msg ++ (0x80 :: List.replicate ((119 - msg.length % 64) % 64) 0) ++
    be64 (8 * msg.length)

/-- Split a byte list into 64-byte blocks. -/
def chunks64 : List Nat → List (List Nat)
  | [] => []
  | b :: rest => ((b :: rest).take 64) :: chunks64 (rest.drop 63)
termination_by l => l.length
decreasing_by
  simp only [List.length_drop, List.length_cons]
  omega

/-- Big-endian packing of bytes into 32-bit words. -/
def bytesToWords : List Nat → List Nat
  | b0 :: b1 :: b2 :: b3 :: rest =>
    (((b0 * 256 + b1) * 256 + b2) * 256 + b3) :: bytesToWords rest
  | _ => []

/-- One extension step of the message schedule. -/
def extendOnce (ws : List Nat) : List Nat :=
  let n := ws.length
  ws ++ [w32 (smallSigma1 (ws.getD (n - 2) 0) + ws.getD (n - 7) 0 +
    smallSigma0 (ws.getD (n - 15) 0) + ws.getD (n - 16) 0)]

/-- Iterate the schedule extension. -/
def extendN : Nat → List Nat → List Nat
  | 0, ws => ws
  | k + 1, ws => extendN k (extendOnce ws)

/-- Compress one 64-byte block into the running hash state. -/
def shaBlock (hs : ShaState) (block : List Nat) : ShaState :=
  let ws := extendN 48 (bytesToWords block)
  let st := (shaK.zip ws).foldl (fun s kw => shaRound s kw.1 kw.2) hs
  ⟨w32 (hs.a + st.a), w32 (hs.b + st.b), w32 (hs.c + st.c), w32 (hs.d + st.d),
   w32 (hs.e + st.e), w32 (hs.f + st.f), w32 (hs.g + st.g), w32 (hs.h + st.h)⟩

/-- SHA-256 of a byte list. -/
def sha256 (msg : List Nat) : ShaState :=
  (chunks64 (shaPad msg)).foldl shaBlock shaH0

/-- Lowercase hexadecimal digit. -/
def hexChar (n : Nat) : Char :=
  if n < 10 then Char.ofNat (48 + n) else Char.ofNat (87 + n)

/-- Fixed-width lowercase hexadecimal rendering, most significant digit
first. -/
def hexFixed : Nat → Nat → List Char
  | 0, _ => []
  | w + 1, n => hexFixed w (n / 16) ++ [hexChar (n % 16)]

/-- Characters of `hexdigest()`: 64 lowercase hex digits. -/
def hexDigestChars (st : ShaState) : List Char :=
  hexFixed 8 st.a ++ hexFixed 8 st.b ++ hexFixed 8 st.c ++ hexFixed 8 st.d ++
    hexFixed 8 st.e ++ hexFixed 8 st.f ++ hexFixed 8 st.g ++ hexFixed 8 st.h

/-- JSON escaping of one character as `json.dumps` renders it with the
default `ensure_ascii=True`: quote, backslash and the short escapes, then
`\uXXXX` (with surrogate pairs) for other control or non-ASCII characters. -/
def jsonEscapeChar (c : Char) : List Char :=
  if c = '"' then ['\\', '"']
  else if c = '\\' then ['\\', '\\']
  else if c = '\n' then ['\\', 'n']
  else if c = '\t' then ['\\', 't']
  else if c = '\r' then ['\\', 'r']
  else if c = '\x08' then ['\\', 'b']
  else if c = '\x0c' then ['\\', 'f']
  else if c.toNat < 0x20 ∨ 0x7f ≤ c.toNat then
    if c.toNat < 0x10000 then '\\' :: 'u' :: hexFixed 4 c.toNat
    else
      let m := c.toNat - 0x10000
      ('\\' :: 'u' :: hexFixed 4 (0xD800 + (m >>> 10))) ++
        ('\\' :: 'u' :: hexFixed 4 (0xDC00 + (m &&& 0x3FF)))
  else [c]

/-- JSON string literal with escaping. -/
def jsonString (s : String) : String :=
  String.mk ('"' :: s.toList.flatMap jsonEscapeChar ++ ['"'])

/-- Rendering of a scalar value inside the canonical JSON document.  The
numeric case abstracts Python float/int repr by a fixed injective rendering
of the rational; no claim depends on the exact digits, only on the
serialization being a function of the key/value pairs. -/
def jsonValue : Value → String
  | Value.num q =>
    if q.den = 1 then toString q.num ++ ".0"
    else toString q.num ++ "/" ++ toString q.den
  | Value.str s => jsonString s
  | Value.bool b => if b then "true" else "false"

/-- Relation ordering feature-map entries by key, as `sort_keys=True` does. -/
def keyLE (p q : String × Value) : Prop := p.1 ≤ q.1

instance : DecidableRel keyLE := fun p q => inferInstanceAs (Decidable (p.1 ≤ q.1))

instance : IsTotal (String × Value) keyLE := ⟨fun p q => le_total p.1 q.1⟩

instance : IsTrans (String × Value) keyLE := ⟨fun _ _ _ hpq hqr => le_trans hpq hqr⟩

/-- Canonical serialization `json.dumps(features, sort_keys=True,
default=str)`: entries sorted lexicographically by key, rendered with the
default separators `", "` and `": "` inside braces. -/
def canonicalJson (features : List (String × Value)) : String :=
  let sorted := features.insertionSort keyLE
  "\x7b" ++ String.intercalate ", "
    (sorted.map (fun p => jsonString p.1 ++ ": " ++ jsonValue p.2)) ++ "\x7d"

/-- Feature hash `_feature_hash` (prediction_logger.py lines 17-21): SHA-256
hex digest of the canonical serialization, truncated to 16 characters. -/
def _feature_hash (features : List (String × Value)) : String :=
  String.mk ((hexDigestChars (sha256 (strBytes (canonicalJson features)))).take 16)

/-- Structured audit record emitted by `log_prediction` (the `payload`
dict): it carries the input-feature hash, never the raw feature values. -/
structure AuditRecord where
  timestamp : String
  model_name : String
  model_version : String
  request_id : Option String
  input_feature_hash : String
  prediction : String
  probabilities : Option (List (String × Rat))
deriving DecidableEq, Repr

/-- Audit logger `log_prediction` (prediction_logger.py lines 24-52).  The
clock is passed in as `ts`; the `LOG_PREDICTIONS` flag disables emission;
`prediction` arrives already stringified.  Returns the emitted record, if
any. -/
def log_prediction (logPredictions : Bool) (ts : String) (model_name : String)
    (model_version : String) (request_id : Option String) (features : Request)
    (prediction : String) (probabilities : Option (List (String × Rat))) :
    Option AuditRecord :=
  if logPredictions then
    some ⟨ts, model_name, model_version, request_id, _feature_hash features,
      prediction, probabilities⟩
  else none

/-! Model loading and prediction flow (risk_model.py, claim_model.py).
The trained artifact is an opaque scorable object; it is modelled by its
observable surface: the optional fit-time schema attributes probed by
`_get_model_feature_names` and the scoring callables used by
`_predict_with_proba`. -/

/-- Single row of the `pd.DataFrame` handed to the scorer: its column
names and the value under each column (`none` models a missing value,
i.e. `NaN` from `features.get(k)` on an absent key). -/
structure FeatureVector where
  columns : List String
  row : List (Option Value)
deriving DecidableEq, Repr

/-- Sub-estimator inside a pipeline: only its optional `feature_names_in_`
attribute is observable here. -/
structure Estimator where
  feature_names_in_ : Option (List String)

/-- Opaque trained model object.  `feature_names_in_`, `steps` and
`named_steps` model the attributes probed by `_get_model_feature_names`
(`none` models a missing attribute or an attribute that is `None`);
`predict` models `str(model.predict(X)[0])` and `predict_proba` the row of
`model.predict_proba(X)`, with `classes_` the stringified class labels. -/
structure Model where
  feature_names_in_ : Option (List String)
  steps : Option (List (String × Estimator))
  named_steps : Option (List (String × Estimator))
  predict : FeatureVector → String
  predict_proba : Option (FeatureVector → List Rat)
  classes_ : Option (List String)

/-- What deserializing the artifact file yields when it succeeds: either a
bare model object, or a dict that may carry a `"model"` key. -/
inductive RawArtifact where
  | bare (m : Model)
  | dictWithModel (m : Model)
  | dictWithoutModel (m : Model)

/-- Unwrapping rule of `_load_model`: a dict exposing a `"model"` key is
unwrapped to the inner object; anything else is used as the model itself. -/
def RawArtifact.unwrap : RawArtifact → Model
  | .bare m => m
  | .dictWithModel m => m
  | .dictWithoutModel m => m

/-- State of the artifact store at one load attempt: the file is missing,
both deserialization strategies fail, or deserialization yields `raw`. -/
inductive LoadOutcome where
  | missing
  | failed
  | ok (raw : RawArtifact)

/-- Memoizing loader `_load_model` of both model modules (risk_model.py
lines 25-55, claim_model.py lines 19-47), as a step function on the module
cache (`_risk_model` / `_claim_model`): returns the loaded model (or none)
and the new cache.  A cached model short-circuits before any file access;
a failed attempt leaves the cache untouched. -/
def _load_model (outcome : LoadOutcome) (cache : Option Model) :
    Option Model × Option Model :=
  match cache with
  | some m => (some m, some m)
  | none =>
    match outcome with
    | .missing => (none, none)
    | .failed => (none, none)
    | .ok raw => (some raw.unwrap, some raw.unwrap)

/-- Declared-schema probe: `model.feature_names_in_` when the attribute
exists and is not `None`. -/
def declaredSchema (m : Model) : Option (List String) :=
  m.feature_names_in_

/-- Pipeline terminal-stage probe: when `model.steps` is truthy, the
`feature_names_in_` of the last step, if any. -/
def stepsSchema (m : Model) : Option (List String) :=
  match m.steps with
  | some ss => ss.getLast?.bind (fun p => p.2.feature_names_in_)
  | none => none

/-- Dict lookup `named_steps[name]`. -/
def lookupStep (ns : List (String × Estimator)) (k : String) : Option Estimator :=
  (ns.find? (fun q => q.1 = k)).map (fun q => q.2)

/-- Named-steps probe: iterate `reversed(list(named_steps.keys()))` and
return the first stage whose `feature_names_in_` is present. -/
def namedStepsSchema (m : Model) : Option (List String) :=
  match m.named_steps with
  | some ns =>
    ns.reverse.findSome? (fun p =>
      (lookupStep ns p.1).bind (fun st => st.feature_names_in_))
  | none => none

/-- Schema resolver `_get_model_feature_names` (risk_model.py lines 74-88;
claim_model.py lines 50-63 are identical): declared schema, then terminal
pipeline stage, then named stages in reverse. -/
def _get_model_feature_names (m : Model) : Option (List String) :=
  ((declaredSchema m).orElse (fun _ => stepsSchema m)).orElse
    (fun _ => namedStepsSchema m)

/-- Contents of the external feature_schema.json document:
`(schema or \x7b\x7d).get(kind, \x7b\x7d).get("features")` per model kind. -/
structure FeatureSchemaDoc where
  riskFeatures : Option (List String)
  claimFeatures : Option (List String)
deriving DecidableEq, Repr

/-- Degraded mode `pd.DataFrame([features])`: raw request fields pass
through with their own keys and order. -/
def rawPassThrough (features : Request) : FeatureVector :=
  ⟨features.map (fun p => p.1), features.map (fun p => some p.2)⟩

/-- Fallback branch of `predict_risk` (risk_model.py lines 188-195): use
the feature-schema document entry for kind "risk" when truthy, else the
plain request dict. -/
def riskFallbackVector (doc : Option FeatureSchemaDoc) (features : Request) :
    FeatureVector :=
  match doc.bind (fun d => d.riskFeatures) with
  | some fs =>
    if fs.isEmpty then rawPassThrough features
    else ⟨fs, fs.map (fun k => lookup features k)⟩
  | none => rawPassThrough features

/-- Fallback branch of `predict_claim` (claim_model.py lines 161-168). -/
def claimFallbackVector (doc : Option FeatureSchemaDoc) (features : Request) :
    FeatureVector :=
  match doc.bind (fun d => d.claimFeatures) with
  | some fs =>
    if fs.isEmpty then rawPassThrough features
    else ⟨fs, fs.map (fun k => lookup features k)⟩
  | none => rawPassThrough features

/-- Feature vector built by `predict_risk` (risk_model.py lines 180-195):
when the model resolves a truthy schema, the reconciled row in schema
order; else the fallback branch. -/
def riskFeatureVector (doc : Option FeatureSchemaDoc) (m : Model)
    (features : Request) : FeatureVector :=
  match _get_model_feature_names m with
  | some fns =>
    if fns.isEmpty then riskFallbackVector doc features
    else ⟨fns, fns.map (fun n =>
      lookup (_build_row_for_model_feature_names fns features) n)⟩
  | none => riskFallbackVector doc features

/-- Feature vector built by `predict_claim` (claim_model.py lines 155-168),
mirroring the risk flow with the claim builder and the "claim" entry of the
document. -/
def claimFeatureVector (doc : Option FeatureSchemaDoc) (m : Model)
    (features : Request) : FeatureVector :=
  match _get_model_feature_names m with
  | some fns =>
    if fns.isEmpty then claimFallbackVector doc features
    else ⟨fns, fns.map (fun n =>
      lookup (_build_row_for_claim_model_feature_names fns features) n)⟩
  | none => claimFallbackVector doc features

/-- Scorer `_predict_with_proba` (risk_model.py lines 144-160): with a
`predict_proba` capability, pair the stringified classes with the first
probability row when `classes_` exists; always extract the label via
`predict`. -/
def _predict_with_proba (m : Model) (fv : FeatureVector) :
    String × Option (List (String × Rat)) :=
  match m.predict_proba with
  | some pp =>
    let pd :=
      match m.classes_ with
      | some cs => some (cs.zip (pp fv))
      | none => none
    (m.predict fv, pd)
  | none => (m.predict fv, none)

/-- Response of the risk endpoint. -/
structure RiskPredictionResponse where
  risk_score : RiskScore
  probabilities : Option (List (String × Rat))
  model_version : String
  request_id : Option String
deriving DecidableEq, Repr

/-- Response of the claim endpoint. -/
structure ClaimPredictionResponse where
  claim_status : ClaimStatus
  probabilities : Option (List (String × Rat))
  model_version : String
  request_id : Option String
deriving DecidableEq, Repr

/-- Stringification of the risk enum passed to `log_prediction` on the
success path (the enum's canonical value). -/
def riskScoreStr : RiskScore → String
  | RiskScore.LOW => "Low"
  | RiskScore.MEDIUM => "Medium"
  | RiskScore.HIGH => "High"

/-- Stringification of the claim enum passed to `log_prediction` on the
success path. -/
def claimStatusStr : ClaimStatus → String
  | ClaimStatus.PAID => "Paid"
  | ClaimStatus.PENDING => "Pending"
  | ClaimStatus.REJECTED => "Rejected"

/-- Result of one `predict_risk` call: the response, the audit records
emitted during the call, and the module cache afterwards. -/
structure RiskPredictOutcome where
  response : RiskPredictionResponse
  records : List AuditRecord
  cache : Option Model

/-- Result of one `predict_claim` call. -/
structure ClaimPredictOutcome where
  response : ClaimPredictionResponse
  records : List AuditRecord
  cache : Option Model

/-- Predictor `predict_risk` (risk_model.py lines 163-204).  `logFlag` is
the `LOG_PREDICTIONS` configuration, `ts` the wall clock observed inside
`log_prediction`, `version` is `RISK_MODEL_VERSION`, `outcome` the state of
the artifact store, `cache` the memoized `_risk_model`, `doc` the loaded
feature-schema document, `req` the validated request after
`_request_to_features`. -/
def predict_risk (logFlag : Bool) (ts : String) (version : String)
    (outcome : LoadOutcome) (cache : Option Model)
    (doc : Option FeatureSchemaDoc) (req : Request)
    (request_id : Option String) : RiskPredictOutcome :=
  let features := req
  let loaded := _load_model outcome cache
  match loaded.1 with
  | none =>
    ⟨⟨RiskScore.LOW, none, version, request_id⟩,
      (log_prediction logFlag ts "risk_model" version request_id features
        "Low" none).toList,
      loaded.2⟩
  | some m =>
    let fv := riskFeatureVector doc m features
    let scored := _predict_with_proba m fv
    let risk_score := _normalize_risk_score (some scored.1)
    ⟨⟨risk_score, scored.2, version, request_id⟩,
      (log_prediction logFlag ts "risk_model" version request_id features
        (riskScoreStr risk_score) scored.2).toList,
      loaded.2⟩

/-- Predictor `predict_claim` (claim_model.py lines 138-177). -/
def predict_claim (logFlag : Bool) (ts : String) (version : String)
    (outcome : LoadOutcome) (cache : Option Model)
    (doc : Option FeatureSchemaDoc) (req : Request)
    (request_id : Option String) : ClaimPredictOutcome :=
  let features := req
  let loaded := _load_model outcome cache
  match loaded.1 with
  | none =>
    ⟨⟨ClaimStatus.PENDING, none, version, request_id⟩,
      (log_prediction logFlag ts "claim_model" version request_id features
        "Pending" none).toList,
      loaded.2⟩
  | some m =>
    let fv := claimFeatureVector doc m features
    let scored := _predict_with_proba m fv
    let claim_status := _normalize_claim_status (some scored.1)
    ⟨⟨claim_status, scored.2, version, request_id⟩,
      (log_prediction logFlag ts "claim_model" version request_id features
        (claimStatusStr claim_status) scored.2).toList,
      loaded.2⟩

/-- Check that every entry of the row handed to the scorer is a present
numeric value (the FeatureRow invariant of the spec). -/
def rowNumericB (fv : FeatureVector) : Bool :=
  fv.row.all (fun o =>
    match o with
    | some v => v.isNum
    | none => false)

/-! Lemmas about the row builders. -/

theorem buildRowAux_eq_append (tbl : List (String × String)) (raw : Request) :
    ∀ (fns : List String) (row : List (String × Value)), fns.Nodup →
      (∀ n ∈ fns, ∀ p ∈ row, p.1 ≠ n) →
      buildRowAux tbl raw fns row =
        row ++ fns.map (fun n => (n, featureValue tbl raw n)) := by
  intro fns
  induction fns with
  | nil => intro row _ _; simp [buildRowAux]
  | cons name rest ih =>
    intro row hnd hdisj
    have hmem : row.any (fun p => p.1 = name) = false := by
      rw [List.any_eq_false]
      intro p hp
      simpa using hdisj name (by simp) p hp
    rw [buildRowAux, hmem]
    simp only [Bool.false_eq_true, if_false]
    rw [ih (row ++ [(name, featureValue tbl raw name)]) hnd.of_cons]
    · simp
    · intro n hn p hp hcontra
      rcases List.mem_append.mp hp with hrow | hone
      · exact hdisj n (List.mem_cons_of_mem _ hn) p hrow hcontra
      · have : p = (name, featureValue tbl raw name) := by simpa using hone
        subst this
        simp only at hcontra
        subst hcontra
        exact (List.nodup_cons.mp hnd).1 hn

theorem find?_map_featureValue (tbl : List (String × String)) (raw : Request) :
    ∀ (fns : List String) (name : String), name ∈ fns →
      (fns.map (fun n => (n, featureValue tbl raw n))).find?
          (fun p => p.1 = name) =
        some (name, featureValue tbl raw name) := by
  intro fns
  induction fns with
  | nil => simp
  | cons hd rest ih =>
    intro name hmem
    by_cases h : hd = name
    · subst h
      simp [List.find?_cons_of_pos]
    · have hname : name ∈ rest := by
        rcases List.mem_cons.mp hmem with h1 | h1
        · exact absurd h1.symm h
        · exact h1
      rw [List.map_cons, List.find?_cons_of_neg _ (by simpa using h)]
      exact ih name hname

theorem lookup_buildRow (tbl : List (String × String)) (raw : Request)
    (fns : List String) (name : String) (hnd : fns.Nodup) (hm : name ∈ fns) :
    lookup (buildRowAux tbl raw fns []) name =
      some (featureValue tbl raw name) := by
  rw [buildRowAux_eq_append tbl raw fns [] hnd (by simp)]
  simp only [List.nil_append]
  unfold lookup
  rw [find?_map_featureValue tbl raw fns name hm]
  rfl

theorem directNumeric_isNum (raw : Request) (name : String) (v : Value)
    (h : directNumeric raw name = some v) : v.isNum = true := by
  unfold directNumeric at h
  split at h
  · rename_i x heq
    rw [Option.some_inj] at h
    subst h
    rfl
  · exact absurd h (by simp)

theorem oneHotValue_isNum (raw : Request) (name : String) (v : Value)
    (h : oneHotValue raw name = some v) : v.isNum = true := by
  unfold oneHotValue at h
  split at h
  · split at h
    · rw [Option.some_inj] at h
      subst h
      rfl
    · exact absurd h (by simp)
  · exact absurd h (by simp)

theorem aliasValue_mem_num (tbl : List (String × String)) (raw : Request)
    (name : String) (v : Value)
    (hwf : tbl.all (fun kv => optNumB (lookup raw kv.1)) = true)
    (h : aliasValue tbl raw name = some v) : v.isNum = true := by
  unfold aliasValue at h
  rcases Option.bind_eq_some.mp h with ⟨kv, hfind, hlook⟩
  have hkv : kv ∈ tbl := List.mem_of_find?_eq_some hfind
  have := List.all_eq_true.mp hwf kv hkv
  rw [hlook] at this
  exact this

theorem featureValue_isNum (tbl : List (String × String)) (raw : Request)
    (name : String) (hwf : wellFormedB tbl raw = true) :
    (featureValue tbl raw name).isNum = true := by
  have hwf3 := hwf
  unfold wellFormedB at hwf3
  rw [Bool.and_eq_true, Bool.and_eq_true] at hwf3
  obtain ⟨⟨htbl, hage⟩, hchr⟩ := hwf3
  unfold featureValue
  cases halias : aliasValue tbl raw name with
  | some v =>
    simp only [Option.orElse, Option.getD]
    exact aliasValue_mem_num tbl raw name v htbl halias
  | none =>
    cases hdir : directNumeric raw name with
    | some v =>
      simp only [Option.orElse, Option.getD]
      exact directNumeric_isNum raw name v hdir
    | none =>
      cases hone : oneHotValue raw name with
      | some v =>
        simp only [Option.orElse, Option.getD]
        exact oneHotValue_isNum raw name v hone
      | none =>
        simp only [Option.orElse, Option.getD]
        unfold defaultValue
        by_cases hn : name = "age"
        · rw [if_pos hn]
          cases hl : lookup raw "age" with
          | none => rfl
          | some w => rw [hl] at hage; simpa using hage
        · rw [if_neg hn]
          by_cases hc : name = "chronic_flag"
          · rw [if_pos hc]
            cases hl : lookup raw "chronic_flag" with
            | none => rfl
            | some w => rw [hl] at hchr; simpa using hchr
          · rw [if_neg hc]; rfl

theorem featureValue_unresolved (tbl : List (String × String)) (raw : Request)
    (name : String) (h : unresolvedB tbl raw name = true) :
    featureValue tbl raw name = Value.num 0 := by
  unfold unresolvedB at h
  rw [Bool.and_eq_true, Bool.and_eq_true] at h
  obtain ⟨⟨halias, hlook⟩, hone⟩ := h
  rw [Option.isNone_iff_eq_none] at halias hlook hone
  unfold featureValue
  rw [halias]
  have hdir : directNumeric raw name = none := by
    unfold directNumeric
    rw [hlook]
  rw [hdir, hone]
  simp only [Option.orElse, Option.getD]
  unfold defaultValue
  by_cases hn : name = "age"
  · rw [if_pos hn, ← hn, hlook]; rfl
  · rw [if_neg hn]
    by_cases hc : name = "chronic_flag"
    · rw [if_pos hc, ← hc, hlook]; rfl
    · rw [if_neg hc]

theorem buildRow_keys_values (tbl : List (String × String)) (raw : Request)
    (fns : List String) (hnd : fns.Nodup)
    (hwf : wellFormedB tbl raw = true) :
    (buildRowAux tbl raw fns []).map Prod.fst = fns ∧
      ∀ p ∈ buildRowAux tbl raw fns [], p.2.isNum = true := by
  rw [buildRowAux_eq_append tbl raw fns [] hnd (by simp)]
  constructor
  · simp only [List.nil_append, List.map_map]
    exact List.map_id fns
  · intro p hp
    simp only [List.nil_append, List.mem_map] at hp
    obtain ⟨n, _, hn⟩ := hp
    subst hn
    exact featureValue_isNum tbl raw n hwf

/-- C1: for every schema of unique feature names and every well-formed
request, both row builders return a row whose key sequence equals the
schema exactly and in order, with every value numeric; the functions are
total (never raise), and a schema name no matching rule resolves is set
to 0.0. -/
theorem feature_row_builder_guarantee (fns : List String) (raw : Request)
    (hnd : fns.Nodup) :
    (wellFormedB _RISK_FIELD_TO_MODEL raw = true →
      (_build_row_for_model_feature_names fns raw).map Prod.fst = fns ∧
      ∀ p ∈ _build_row_for_model_feature_names fns raw, p.2.isNum = true) ∧
    (wellFormedB [] raw = true →
      (_build_row_for_claim_model_feature_names fns raw).map Prod.fst = fns ∧
      ∀ p ∈ _build_row_for_claim_model_feature_names fns raw, p.2.isNum = true) ∧
    (∀ name ∈ fns, unresolvedB _RISK_FIELD_TO_MODEL raw name = true →
      lookup (_build_row_for_model_feature_names fns raw) name =
        some (Value.num 0)) ∧
    (∀ name ∈ fns, unresolvedB [] raw name = true →
      lookup (_build_row_for_claim_model_feature_names fns raw) name =
        some (Value.num 0)) := by
  refine ⟨fun hwf => buildRow_keys_values _ raw fns hnd hwf,
    fun hwf => buildRow_keys_values _ raw fns hnd hwf, ?_, ?_⟩
  · intro name hm hu
    unfold _build_row_for_model_feature_names
    rw [lookup_buildRow _ raw fns name hnd hm,
      featureValue_unresolved _ raw name hu]
  · intro name hm hu
    unfold _build_row_for_claim_model_feature_names
    rw [lookup_buildRow _ raw fns name hnd hm,
      featureValue_unresolved _ raw name hu]

/-- Witness for C1 at a concrete schema and request. -/
theorem feature_row_builder_guarantee_witness :
    _build_row_for_model_feature_names ["gender_F", "age", "extra"]
        [("gender", Value.str "F"), ("age", Value.num 45)] =
      [("gender_F", Value.num 1), ("age", Value.num 45),
       ("extra", Value.num 0)] ∧
    (_build_row_for_model_feature_names ["gender_F", "age", "extra"]
        [("gender", Value.str "F"), ("age", Value.num 45)]).map Prod.fst =
      ["gender_F", "age", "extra"] := by
  refine ⟨by decide, ?_⟩
  exact (feature_row_builder_guarantee ["gender_F", "age", "extra"]
    [("gender", Value.str "F"), ("age", Value.num 45)]
    (by decide)).1 (by decide) |>.1

theorem aliasValue_nil (raw : Request) (name : String) :
    aliasValue [] raw name = none := rfl

theorem featureValue_onehot (tbl : List (String × String)) (raw : Request)
    (name pre suf x : String)
    (halias : aliasValue tbl raw name = none)
    (hdir : directNumeric raw name = none)
    (hsplit : splitFirstUnderscore name = some (pre, suf))
    (hpre : lookup raw pre = some (Value.str x)) :
    featureValue tbl raw name =
      Value.num (if normStr suf = normStr x then 1 else 0) := by
  unfold featureValue
  rw [halias, hdir]
  simp only [oneHotValue, hsplit, hpre, Option.orElse, Option.getD]

/-- C2: one-hot law.  For a schema name split at the first separator into
`pre` and `suf`, when neither the alias rule nor the direct-numeric rule
resolves it and the request holds the string `x` under `pre`, both built
rows map the name to 1.0 exactly when `normStr suf = normStr x` (lowercase,
underscores and spaces equivalent), else 0.0; in particular schema
`["gender_F", "gender_M", "age"]` with request `gender="F", age=45` yields
the row `gender_F=1.0, gender_M=0.0, age=45.0`. -/
theorem one_hot_law (raw : Request) (fns : List String)
    (name pre suf x : String) (hnd : fns.Nodup) (hmem : name ∈ fns)
    (hsplit : splitFirstUnderscore name = some (pre, suf))
    (halias : aliasValue _RISK_FIELD_TO_MODEL raw name = none)
    (hdir : directNumeric raw name = none)
    (hpre : lookup raw pre = some (Value.str x)) :
    lookup (_build_row_for_model_feature_names fns raw) name =
      some (Value.num (if normStr suf = normStr x then 1 else 0)) ∧
    lookup (_build_row_for_claim_model_feature_names fns raw) name =
      some (Value.num (if normStr suf = normStr x then 1 else 0)) ∧
    _build_row_for_model_feature_names ["gender_F", "gender_M", "age"]
        [("gender", Value.str "F"), ("age", Value.num 45)] =
      [("gender_F", Value.num 1), ("gender_M", Value.num 0),
       ("age", Value.num 45)] ∧
    _build_row_for_claim_model_feature_names ["gender_F", "gender_M", "age"]
        [("gender", Value.str "F"), ("age", Value.num 45)] =
      [("gender_F", Value.num 1), ("gender_M", Value.num 0),
       ("age", Value.num 45)] := by
  refine ⟨?_, ?_, by decide, by decide⟩
  · unfold _build_row_for_model_feature_names
    rw [lookup_buildRow _ raw fns name hnd hmem,
      featureValue_onehot _ raw name pre suf x halias hdir hsplit hpre]
  · unfold _build_row_for_claim_model_feature_names
    rw [lookup_buildRow _ raw fns name hnd hmem,
      featureValue_onehot _ raw name pre suf x (aliasValue_nil raw name)
        hdir hsplit hpre]

/-- Witness for C2 at the concrete schema name `gender_F` of Scenario A. -/
theorem one_hot_law_witness :
    lookup (_build_row_for_model_feature_names ["gender_F", "gender_M", "age"]
        [("gender", Value.str "F"), ("age", Value.num 45)]) "gender_F" =
      some (Value.num (if normStr "F" = normStr "F" then 1 else 0)) :=
  (one_hot_law [("gender", Value.str "F"), ("age", Value.num 45)]
    ["gender_F", "gender_M", "age"] "gender_F" "gender" "F" "F"
    (by decide) (by decide) (by decide) (by decide) (by decide)
    (by decide)).1

/-- C3: for each schema name the builders apply the first matching rule in
the fixed precedence alias, direct numeric, one-hot, named default / zero
fallback; an alias hit with a present non-null API field wins and its value
is used verbatim; in particular schema `["avg_los_per_patient"]` with
request `avg_length_of_stay_patient=3.2` yields `avg_los_per_patient=3.2`
through the risk alias table. -/
theorem rule_precedence (tbl : List (String × String)) (raw : Request)
    (name : String) (v : Value) (fns : List String) :
    (aliasValue tbl raw name = some v → featureValue tbl raw name = v) ∧
    (aliasValue tbl raw name = none → directNumeric raw name = some v →
      featureValue tbl raw name = v) ∧
    (aliasValue tbl raw name = none → directNumeric raw name = none →
      oneHotValue raw name = some v → featureValue tbl raw name = v) ∧
    (aliasValue tbl raw name = none → directNumeric raw name = none →
      oneHotValue raw name = none →
      featureValue tbl raw name = defaultValue raw name) ∧
    (fns.Nodup → name ∈ fns →
      aliasValue _RISK_FIELD_TO_MODEL raw name = some v →
      lookup (_build_row_for_model_feature_names fns raw) name = some v) ∧
    _build_row_for_model_feature_names ["avg_los_per_patient"]
        [("avg_length_of_stay_patient", Value.num (16 / 5))] =
      [("avg_los_per_patient", Value.num (16 / 5))] := by
  refine ⟨?_, ?_, ?_, ?_, ?_, by rfl⟩
  · intro h
    unfold featureValue
    rw [h]
    rfl
  · intro h1 h2
    unfold featureValue
    rw [h1, h2]
    rfl
  · intro h1 h2 h3
    unfold featureValue
    rw [h1, h2, h3]
    rfl
  · intro h1 h2 h3
    unfold featureValue
    rw [h1, h2, h3]
    rfl
  · intro hnd hmem h
    unfold _build_row_for_model_feature_names
    rw [lookup_buildRow _ raw fns name hnd hmem]
    unfold featureValue
    rw [h]
    rfl

/-- Witness for C3: Scenario B through the theorem's alias-wins clause. -/
theorem rule_precedence_witness :
    lookup (_build_row_for_model_feature_names ["avg_los_per_patient"]
        [("avg_length_of_stay_patient", Value.num (16 / 5))])
      "avg_los_per_patient" = some (Value.num (16 / 5)) :=
  (rule_precedence _RISK_FIELD_TO_MODEL
    [("avg_length_of_stay_patient", Value.num (16 / 5))]
    "avg_los_per_patient" (Value.num (16 / 5))
    ["avg_los_per_patient"]).2.2.2.2.1 (by decide) (by decide) (by rfl)

/-- C4: label normalization is total per model kind and, after trimming
whitespace and lowercasing the raw label, matches the fixed tables; every
other string maps to the fallback member (Low for risk, Pending for claim),
so the result is always a member of the fixed enumeration. -/
theorem label_normalization_tables (s : String) :
    (_normalize_risk_score (some s) = RiskScore.HIGH ↔
      pyLower (pyStrip s) = "high" ∨ pyLower (pyStrip s) = "2") ∧
    (_normalize_risk_score (some s) = RiskScore.MEDIUM ↔
      pyLower (pyStrip s) = "medium" ∨ pyLower (pyStrip s) = "mid" ∨
        pyLower (pyStrip s) = "1") ∧
    (_normalize_risk_score (some s) = RiskScore.LOW ↔
      ¬(pyLower (pyStrip s) = "high" ∨ pyLower (pyStrip s) = "2") ∧
      ¬(pyLower (pyStrip s) = "medium" ∨ pyLower (pyStrip s) = "mid" ∨
        pyLower (pyStrip s) = "1")) ∧
    (_normalize_claim_status (some s) = ClaimStatus.REJECTED ↔
      pyLower (pyStrip s) = "rejected" ∨ pyLower (pyStrip s) = "reject") ∧
    (_normalize_claim_status (some s) = ClaimStatus.PAID ↔
      ¬(pyLower (pyStrip s) = "rejected" ∨ pyLower (pyStrip s) = "reject") ∧
      (pyLower (pyStrip s) = "paid" ∨ pyLower (pyStrip s) = "accept")) ∧
    (_normalize_claim_status (some s) = ClaimStatus.PENDING ↔
      ¬(pyLower (pyStrip s) = "rejected" ∨ pyLower (pyStrip s) = "reject") ∧
      ¬(pyLower (pyStrip s) = "paid" ∨ pyLower (pyStrip s) = "accept")) := by
  unfold _normalize_risk_score _normalize_claim_status
  simp only [Option.getD]
  by_cases h1 : pyLower (pyStrip s) = "high" <;>
    by_cases h2 : pyLower (pyStrip s) = "2" <;>
    by_cases h3 : pyLower (pyStrip s) = "medium" <;>
    by_cases h4 : pyLower (pyStrip s) = "mid" <;>
    by_cases h5 : pyLower (pyStrip s) = "1" <;>
    by_cases h6 : pyLower (pyStrip s) = "rejected" <;>
    by_cases h7 : pyLower (pyStrip s) = "reject" <;>
    by_cases h8 : pyLower (pyStrip s) = "paid" <;>
    by_cases h9 : pyLower (pyStrip s) = "accept" <;>
    simp_all

/-- C5: when the model artifact is unavailable (file missing or loading
fails) and nothing is cached, predict does not raise: risk falls back to
Low and claim to Pending, both with no probabilities and the configured
model version, and (with logging enabled) exactly one audit record is
emitted whose prediction string is the fallback label. -/
theorem artifact_unavailable_fallback (ts version : String)
    (doc : Option FeatureSchemaDoc) (req : Request) (rid : Option String) :
    (predict_risk true ts version LoadOutcome.missing none doc req rid).response =
      ⟨RiskScore.LOW, none, version, rid⟩ ∧
    (predict_risk true ts version LoadOutcome.missing none doc req rid).records =
      [⟨ts, "risk_model", version, rid, _feature_hash req, "Low", none⟩] ∧
    (predict_risk true ts version LoadOutcome.failed none doc req rid).response =
      ⟨RiskScore.LOW, none, version, rid⟩ ∧
    (predict_risk true ts version LoadOutcome.failed none doc req rid).records =
      [⟨ts, "risk_model", version, rid, _feature_hash req, "Low", none⟩] ∧
    (predict_claim true ts version LoadOutcome.missing none doc req rid).response =
      ⟨ClaimStatus.PENDING, none, version, rid⟩ ∧
    (predict_claim true ts version LoadOutcome.missing none doc req rid).records =
      [⟨ts, "claim_model", version, rid, _feature_hash req, "Pending", none⟩] ∧
    (predict_claim true ts version LoadOutcome.failed none doc req rid).response =
      ⟨ClaimStatus.PENDING, none, version, rid⟩ ∧
    (predict_claim true ts version LoadOutcome.failed none doc req rid).records =
      [⟨ts, "claim_model", version, rid, _feature_hash req, "Pending", none⟩] :=
  ⟨rfl, rfl, rfl, rfl, rfl, rfl, rfl, rfl⟩

/-- C7: the per-kind model cache obeys a one-way state machine.  With a
cached handle, `_load_model` returns that same handle regardless of the
artifact store (so nothing is re-read); a failed attempt memoizes nothing
and leaves the cache unchanged, and the next call re-attempts the load, so
a store that recovers is picked up. -/
theorem load_model_state_machine :
    (∀ (o : LoadOutcome) (m : Model), _load_model o (some m) = (some m, some m)) ∧
    _load_model LoadOutcome.missing none = (none, none) ∧
    _load_model LoadOutcome.failed none = (none, none) ∧
    (∀ raw : RawArtifact, _load_model (LoadOutcome.ok raw) none =
      (some raw.unwrap, some raw.unwrap)) ∧
    (∀ (raw : RawArtifact) (o : LoadOutcome),
      _load_model o (_load_model (LoadOutcome.ok raw) none).2 =
        (some raw.unwrap, some raw.unwrap)) ∧
    (∀ raw : RawArtifact,
      _load_model (LoadOutcome.ok raw)
          (_load_model LoadOutcome.failed none).2 =
        (some raw.unwrap, some raw.unwrap)) :=
  ⟨fun o _ => match o with
    | .missing => rfl
    | .failed => rfl
    | .ok _ => rfl,
   rfl, rfl, fun _ => rfl,
   fun _ o => match o with
    | .missing => rfl
    | .failed => rfl
    | .ok _ => rfl,
   fun _ => rfl⟩

/-- C10: the label normalizers are total beyond string inputs: a missing
(None) or empty raw label normalizes to Low for risk and Pending for claim,
because `(label or "")` substitutes the empty string; normalization never
raises for any optional-string label (it is a total function here). -/
theorem label_normalization_none_empty :
    _normalize_risk_score none = RiskScore.LOW ∧
    _normalize_risk_score (some "") = RiskScore.LOW ∧
    _normalize_claim_status none = ClaimStatus.PENDING ∧
    _normalize_claim_status (some "") = ClaimStatus.PENDING :=
  ⟨by decide, by decide, by decide, by decide⟩

/-! Lemmas for the audit hash. -/

theorem insertionSort_key_congr (f g : List (String × Value))
    (hnd : (f.map Prod.fst).Nodup) (hp : f.Perm g) :
    f.insertionSort keyLE = g.insertionSort keyLE := by
  haveI : IsAntisymm (String × Value) (fun p q => p.1 < q.1) :=
    ⟨fun a b h1 h2 => absurd h2 (lt_asymm h1)⟩
  have sortedLt : ∀ l : List (String × Value), (l.map Prod.fst).Nodup →
      List.Sorted (fun p q : String × Value => p.1 < q.1)
        (l.insertionSort keyLE) := by
    intro l hl
    have hs : List.Sorted keyLE (l.insertionSort keyLE) :=
      List.sorted_insertionSort keyLE l
    have hnds : ((l.insertionSort keyLE).map Prod.fst).Nodup := by
      refine (List.Perm.nodup_iff ?_).mpr hl
      exact (List.perm_insertionSort keyLE l).map Prod.fst
    have hne : List.Pairwise (fun p q : String × Value => p.1 ≠ q.1)
        (l.insertionSort keyLE) := List.pairwise_map.mp hnds
    exact (hs.and hne).imp (fun hab => lt_of_le_of_ne hab.1 hab.2)
  have hndg : (g.map Prod.fst).Nodup :=
    (List.Perm.nodup_iff (hp.map Prod.fst)).mp hnd
  exact List.eq_of_perm_of_sorted
    ((List.perm_insertionSort keyLE f).trans
      (hp.trans (List.perm_insertionSort keyLE g).symm))
    (sortedLt f hnd) (sortedLt g hndg)

theorem hexFixed_length (w : Nat) : ∀ n : Nat, (hexFixed w n).length = w := by
  induction w with
  | zero => intro n; rfl
  | succ k ih =>
    intro n
    simp [hexFixed, ih]

theorem hexDigestChars_length (st : ShaState) :
    (hexDigestChars st).length = 64 := by
  simp [hexDigestChars, hexFixed_length]

theorem hexChar_mem_digits (n : Nat) (h : n < 16) :
    hexChar n ∈ ("0123456789abcdef".toList) := by
  interval_cases n <;> decide

theorem hexFixed_mem_digits (w : Nat) :
    ∀ (n : Nat) (c : Char), c ∈ hexFixed w n →
      c ∈ ("0123456789abcdef".toList) := by
  induction w with
  | zero => intro n c hc; simp [hexFixed] at hc
  | succ k ih =>
    intro n c hc
    rcases List.mem_append.mp hc with hc1 | hc2
    · exact ih (n / 16) c hc1
    · have : c = hexChar (n % 16) := by simpa using hc2
      subst this
      exact hexChar_mem_digits (n % 16) (Nat.mod_lt n (by norm_num))

theorem hexDigestChars_mem_digits (st : ShaState) (c : Char)
    (hc : c ∈ hexDigestChars st) : c ∈ ("0123456789abcdef".toList) := by
  unfold hexDigestChars at hc
  simp only [List.mem_append] at hc
  rcases hc with ((((((h | h) | h) | h) | h) | h) | h) | h <;>
    exact hexFixed_mem_digits 8 _ c h

/-- C6: the audit input-feature hash is a 16-hexadecimal-character
truncation of a digest of the feature map serialized with keys sorted
lexicographically: feature maps holding exactly the same key/value pairs
hash identically regardless of insertion order, the hash is 16 characters
of hex, and the emitted audit record carries this hash in place of the raw
feature values. -/
theorem audit_hash_deterministic :
    (∀ f g : List (String × Value), (f.map Prod.fst).Nodup → f.Perm g →
      _feature_hash f = _feature_hash g) ∧
    (∀ f : List (String × Value), (_feature_hash f).length = 16) ∧
    (∀ f : List (String × Value), ∀ c ∈ (_feature_hash f).toList,
      c ∈ ("0123456789abcdef".toList)) ∧
    (∀ (ts mn mv : String) (rid : Option String) (f : Request)
      (pred : String) (probs : Option (List (String × Rat))),
      log_prediction true ts mn mv rid f pred probs =
        some ⟨ts, mn, mv, rid, _feature_hash f, pred, probs⟩) := by
  refine ⟨?_, ?_, ?_, fun _ _ _ _ _ _ _ => rfl⟩
  · intro f g hnd hp
    unfold _feature_hash canonicalJson
    rw [insertionSort_key_congr f g hnd hp]
  · intro f
    unfold _feature_hash
    show (List.take 16 _).length = 16
    rw [List.length_take, hexDigestChars_length]
    rfl
  · intro f c hc
    unfold _feature_hash at hc
    have hc' : c ∈ (hexDigestChars
        (sha256 (strBytes (canonicalJson f)))).take 16 := hc
    exact hexDigestChars_mem_digits _ c (List.take_subset 16 _ hc')

/-- Witness for C6: two orderings of the same two-entry feature map hash
identically. -/
theorem audit_hash_deterministic_witness :
    _feature_hash [("b", Value.num 1), ("a", Value.str "x")] =
      _feature_hash [("a", Value.str "x"), ("b", Value.num 1)] :=
  audit_hash_deterministic.1
    [("b", Value.num 1), ("a", Value.str "x")]
    [("a", Value.str "x"), ("b", Value.num 1)]
    (by decide) (List.Perm.swap _ _ _)

/-- C8: the scoring schema is resolved by trying, in order with first
success winning: the model's own declared feature names, the terminal stage
of a staged pipeline, the most-recently-added named stage (iterated in
reverse) declaring feature names, the external feature-schema document
keyed by model kind, and otherwise degraded mode passing the raw request
fields through without raising. -/
theorem schema_resolution_order :
    (∀ (m : Model) (fns : List String), declaredSchema m = some fns →
      _get_model_feature_names m = some fns) ∧
    (∀ (m : Model) (fns : List String), declaredSchema m = none →
      stepsSchema m = some fns → _get_model_feature_names m = some fns) ∧
    (∀ (m : Model) (fns : List String), declaredSchema m = none →
      stepsSchema m = none → namedStepsSchema m = some fns →
      _get_model_feature_names m = some fns) ∧
    namedStepsSchema
        ⟨none, none,
         some [("s1", ⟨some ["a"]⟩), ("s2", ⟨some ["b"]⟩)],
         fun _ => "x", none, none⟩ = some ["b"] ∧
    (∀ (m : Model) (doc : Option FeatureSchemaDoc) (features : Request)
      (fs : List String), _get_model_feature_names m = none →
      doc.bind (fun d => d.riskFeatures) = some fs → fs ≠ [] →
      riskFeatureVector doc m features =
        ⟨fs, fs.map (fun k => lookup features k)⟩) ∧
    (∀ (m : Model) (doc : Option FeatureSchemaDoc) (features : Request),
      _get_model_feature_names m = none →
      doc.bind (fun d => d.riskFeatures) = none →
      riskFeatureVector doc m features = rawPassThrough features) := by
  refine ⟨?_, ?_, ?_, rfl, ?_, ?_⟩
  · intro m fns h
    unfold _get_model_feature_names
    rw [h]
    rfl
  · intro m fns h1 h2
    unfold _get_model_feature_names
    rw [h1, h2]
    rfl
  · intro m fns h1 h2 h3
    unfold _get_model_feature_names
    rw [h1, h2, h3]
    rfl
  · intro m doc features fs h1 h2 hne
    unfold riskFeatureVector
    rw [h1]
    unfold riskFallbackVector
    rw [h2]
    simp [List.isEmpty_eq_false.mpr hne]
  · intro m doc features h1 h2
    unfold riskFeatureVector
    rw [h1]
    unfold riskFallbackVector
    rw [h2]

/-- Witness for C8: a model with declared names resolves to them, and a
schema-less model with a document entry takes the document's list. -/
theorem schema_resolution_order_witness :
    _get_model_feature_names
        ⟨some ["a"], none, none, fun _ => "x", none, none⟩ = some ["a"] ∧
    riskFeatureVector (some ⟨some ["k"], none⟩)
        ⟨none, none, none, fun _ => "x", none, none⟩ [] =
      ⟨["k"], [none]⟩ := by
  constructor
  · exact schema_resolution_order.1 _ ["a"] rfl
  · exact schema_resolution_order.2.2.2.2.1
      ⟨none, none, none, fun _ => "x", none, none⟩
      (some ⟨some ["k"], none⟩) [] ["k"] rfl rfl (by decide)

/-- C9 counterexample: a prediction whose schema is resolved from the
external feature-schema document hands the scorer a row with the schema's
keys but a non-numeric value — the raw string request field passes through
— so the FeatureRow invariant does not hold on the document path.  The
request `department="ER"` is well-formed: `department` is a declared,
required string field of the risk request schema. -/
theorem feature_row_invariant_counterexample :
    _get_model_feature_names
        ⟨none, none, none, fun _ => "Low", none, none⟩ = none ∧
    (some (FeatureSchemaDoc.mk (some ["department"]) none)).bind
        (fun d => d.riskFeatures) = some ["department"] ∧
    riskFeatureVector (some ⟨some ["department"], none⟩)
        ⟨none, none, none, fun _ => "Low", none, none⟩
        [("department", Value.str "ER")] =
      ⟨["department"], [some (Value.str "ER")]⟩ ∧
    rowNumericB ⟨["department"], [some (Value.str "ER")]⟩ = false :=
  ⟨rfl, rfl, rfl, rfl⟩

/-- C9 (amended): when the schema is resolved from the model itself
(declared names or a pipeline stage), the row handed to the scorer has key
sequence equal to the resolved schema, equal length, and — for a
well-formed request and unique schema names — no non-numeric value; when
the schema comes from the external document, the key sequence and length
still match the schema but values are raw pass-through. -/
theorem feature_row_invariant (doc : Option FeatureSchemaDoc) (m : Model)
    (features : Request) (fns : List String) :
    (_get_model_feature_names m = some fns → fns ≠ [] → fns.Nodup →
      wellFormedB _RISK_FIELD_TO_MODEL features = true →
      (riskFeatureVector doc m features).columns = fns ∧
      (riskFeatureVector doc m features).row.length = fns.length ∧
      rowNumericB (riskFeatureVector doc m features) = true) ∧
    (_get_model_feature_names m = some fns → fns ≠ [] → fns.Nodup →
      wellFormedB [] features = true →
      (claimFeatureVector doc m features).columns = fns ∧
      (claimFeatureVector doc m features).row.length = fns.length ∧
      rowNumericB (claimFeatureVector doc m features) = true) ∧
    (_get_model_feature_names m = none →
      doc.bind (fun d => d.riskFeatures) = some fns → fns ≠ [] →
      (riskFeatureVector doc m features).columns = fns ∧
      (riskFeatureVector doc m features).row.length = fns.length) ∧
    (_get_model_feature_names m = none →
      doc.bind (fun d => d.claimFeatures) = some fns → fns ≠ [] →
      (claimFeatureVector doc m features).columns = fns ∧
      (claimFeatureVector doc m features).row.length = fns.length) := by
  refine ⟨?_, ?_, ?_, ?_⟩
  · intro hres hne hnd hwf
    unfold riskFeatureVector
    rw [hres]
    simp only [List.isEmpty_eq_false.mpr hne, Bool.false_eq_true, if_false]
    refine ⟨by trivial, by simp, ?_⟩
    unfold rowNumericB
    rw [List.all_eq_true]
    intro o ho
    simp only [List.mem_map] at ho
    obtain ⟨n, hn, rfl⟩ := ho
    unfold _build_row_for_model_feature_names
    rw [lookup_buildRow _ features fns n hnd hn]
    exact featureValue_isNum _ features n hwf
  · intro hres hne hnd hwf
    unfold claimFeatureVector
    rw [hres]
    simp only [List.isEmpty_eq_false.mpr hne, Bool.false_eq_true, if_false]
    refine ⟨by trivial, by simp, ?_⟩
    unfold rowNumericB
    rw [List.all_eq_true]
    intro o ho
    simp only [List.mem_map] at ho
    obtain ⟨n, hn, rfl⟩ := ho
    unfold _build_row_for_claim_model_feature_names
    rw [lookup_buildRow _ features fns n hnd hn]
    exact featureValue_isNum _ features n hwf
  · intro hres hdoc hne
    unfold riskFeatureVector
    rw [hres]
    unfold riskFallbackVector
    rw [hdoc]
    simp only [List.isEmpty_eq_false.mpr hne, Bool.false_eq_true, if_false]
    exact ⟨by trivial, by simp⟩
  · intro hres hdoc hne
    unfold claimFeatureVector
    rw [hres]
    unfold claimFallbackVector
    rw [hdoc]
    simp only [List.isEmpty_eq_false.mpr hne, Bool.false_eq_true, if_false]
    exact ⟨by trivial, by simp⟩

/-- Witness for C9 (amended) at a concrete declared-schema model and
request. -/
theorem feature_row_invariant_witness :
    rowNumericB (riskFeatureVector none
      ⟨some ["gender_F", "age"], none, none, fun _ => "High", none, none⟩
      [("gender", Value.str "F"), ("age", Value.num 45)]) = true :=
  ((feature_row_invariant none
    ⟨some ["gender_F", "age"], none, none, fun _ => "High", none, none⟩
    [("gender", Value.str "F"), ("age", Value.num 45)]
    ["gender_F", "age"]).1 rfl (by decide) (by decide) (by decide)).2.2

end Hospital
